import Mathlib

/-!
Verification of the emon32 firmware utility layer against its
natural-language specification.

The definitions below are a shallow embedding of the C sources
(`src/util.c`, which concatenates the utility library, the external
interrupt controller and the SERCOM serial driver) and of the
Cortex-M0+ assembly square routines (`usqr64` / `ssqr64`).
Machine integers are modelled as `Nat` with explicit `% 2^32`
reductions wherever the 32-bit hardware can wrap; signed values are
`Int` with explicit two's-complement encode/decode.  C strings are
`List Nat` of byte values up to (not including) the NUL terminator.
-/

/-- 2^32, the modulus of the 32-bit registers. -/
def U32 : Nat := 4294967296

/-- Two's-complement reading of a 32-bit pattern (`(int32_t)x` in C). -/
def toInt32 (n : Nat) : Int := if n < 2147483648 then (n : Int) else (n : Int) - 4294967296

/-- Two's-complement 32-bit encoding of a signed value (`(uint32_t)v` in C). -/
def int32Bits (v : Int) : Nat := (v % 4294967296).toNat

/-!
## Fast division by ten — `fastDiv10` (src/util.c lines 36–45)

    static inline uint32_t fastDiv10(uint32_t n) {
      uint32_t q = (n >> 1) + (n >> 2);
      q          = q + (q >> 4);
      q          = q + (q >> 8);
      q          = q + (q >> 16);
      q          = q >> 3;
      uint32_t r = n - q * 10;
      return q + ((r + 6) >> 4);
    }

Each intermediate `uint32_t` assignment is one definition below, with
the reduction mod 2^32 written out (the proofs show none of them can
actually wrap for 32-bit inputs).
-/

/-- `q = (n >> 1) + (n >> 2)` -/
def fdA (n : Nat) : Nat := ((n >>> 1) + (n >>> 2)) % 4294967296

/-- `q = q + (q >> 4)` -/
def fdB (n : Nat) : Nat := (fdA n + (fdA n >>> 4)) % 4294967296

/-- `q = q + (q >> 8)` -/
def fdC (n : Nat) : Nat := (fdB n + (fdB n >>> 8)) % 4294967296

/-- `q = q + (q >> 16)` -/
def fdD (n : Nat) : Nat := (fdC n + (fdC n >>> 16)) % 4294967296

/-- `q = q >> 3` -/
def fdQ (n : Nat) : Nat := fdD n >>> 3

/-- `r = n - q * 10` — 32-bit wrap-around subtraction. -/
def fdR (n : Nat) : Nat := (n + (4294967296 - (fdQ n * 10) % 4294967296)) % 4294967296

/-- `fastDiv10`: the returned value `q + ((r + 6) >> 4)`. -/
def fastDiv10 (n : Nat) : Nat := (fdQ n + ((fdR n + 6) >>> 4)) % 4294967296

/-!
## Fast 32→64-bit squares — `usqr64` / `ssqr64` (src/unnamed/part_018)

The assembly is translated register step by register step.  The output
pair is (r0, r1) = (low word, high word).
-/

/-- The unsigned square routine `usqr64` on a 32-bit input `x`:

    lsrs r1, r0, #16 ; uxth r0, r0 ; mov r2, r1
    muls r2, r0 ; muls r1, r1 ; muls r0, r0
    lsrs r3, r2, #15 ; lsls r2, r2, #17
    adds r0, r2      -- low word, sets carry
    adcs r1, r3      -- high word
-/
def usqr64 (x : Nat) : Nat × Nat :=
  let r1 := x >>> 16
  let r0 := x % 65536
  let r2 := (r1 * r0) % 4294967296
  let r1sq := (r1 * r1) % 4294967296
  let r0sq := (r0 * r0) % 4294967296
  let r3 := r2 >>> 15
  let r2sh := (r2 <<< 17) % 4294967296
  let low := (r0sq + r2sh) % 4294967296
  let carry := (r0sq + r2sh) / 4294967296
  let high := (r1sq + r3 + carry) % 4294967296
  (low, high)

/-- `asrs rd, rs, #16` on a 32-bit register: arithmetic (sign-propagating)
shift right by 16. -/
def asr16 (x : Nat) : Nat :=
  if x < 2147483648 then x >>> 16 else (x >>> 16) + 4294901760

/-- The signed square routine `ssqr64`: identical to `usqr64` except the
high half is extracted with `asrs` (arithmetic shift) instead of `lsrs`.
In particular the cross-term shifts `lsrs r3, r2, #15` and
`lsls r2, r2, #17` are **logical**, exactly as in the assembly. -/
def ssqr64 (x : Nat) : Nat × Nat :=
  let r1 := asr16 x
  let r0 := x % 65536
  let r2 := (r1 * r0) % 4294967296
  let r1sq := (r1 * r1) % 4294967296
  let r0sq := (r0 * r0) % 4294967296
  let r3 := r2 >>> 15
  let r2sh := (r2 <<< 17) % 4294967296
  let low := (r0sq + r2sh) % 4294967296
  let carry := (r0sq + r2sh) / 4294967296
  let high := (r1sq + r3 + carry) % 4294967296
  (low, high)

/-!
## Integer/string conversion — `utilItoa`, `utilAtoi` (src/util.c 47–142)

C strings are modelled as `List Nat` of byte values; the list holds the
characters up to (not including) the NUL terminator, except where a
definition explicitly models the written buffer (then the terminator
byte 0 is included, as `utilItoa` writes it).  Byte values: 45 is a
minus sign, 48–57 are the digits, 97–102 are the hex letters.
-/

/-- The numeral-base selector `ITOA_BASE_t`. -/
inductive ITOA_BASE_t where
  | ITOA_BASE10
  | ITOA_BASE16
deriving DecidableEq

/-- `ConvInt_t`: validity flag plus parsed signed 32-bit value. -/
structure ConvInt_t where
  valid : Bool
  val : Int
deriving DecidableEq

/-- `isnumeric` (src/util.c 10–15): `'0' <= c && c <= '9'`. -/
def isnumeric (c : Nat) : Bool := 48 ≤ c && c ≤ 57

/-- One decimal-digit pass of the `utilItoa` base-10 loop
(`while (uval != 0) { q = fastDiv10(uval); *--p = '0' + (uval - q*10); uval = q; }`),
building the most-significant digit first.  `fuel` bounds the loop as the
12-byte local buffer does; 32-bit inputs need at most 10 iterations. -/
def itoaDigits10 : Nat → Nat → List Nat
  | _, 0 => []
  | 0, _ => []
  | fuel + 1, uval =>
    itoaDigits10 fuel (fastDiv10 uval) ++ [48 + (uval - fastDiv10 uval * 10)]

/-- `itohex[d]` for a nibble `d`: the character table "0123456789abcdef". -/
def itohex (d : Nat) : Nat := if d < 10 then 48 + d else 87 + d

/-- One hex-digit pass of the `utilItoa` base-16 loop
(`while (val_u != 0) { *--p = itohex[val_u & 0xF]; val_u >>= 4; }`). -/
def itoaDigits16 : Nat → Nat → List Nat
  | _, 0 => []
  | 0, _ => []
  | fuel + 1, valU =>
    itoaDigits16 fuel (valU >>> 4) ++ [itohex (valU % 16)]

/-- `utilItoa` (src/util.c 47–99).  Returns the bytes written to `pBuf`
(including the NUL terminator) and the returned length.  The negation
`(uint32_t)(-val)` is the two's-complement bit pattern of `-val`, which
is what the hardware produces also at `INT32_MIN`. -/
def utilItoa (val : Int) (base : ITOA_BASE_t) : List Nat × Nat :=
  if val = 0 then ([48, 0], 2)
  else
    let digits :=
      if base = ITOA_BASE_t.ITOA_BASE10 then
        let body :=
          if val < 0 then itoaDigits10 12 (int32Bits (-val))
          else itoaDigits10 12 (int32Bits val)
        if val < 0 then 45 :: body else body
      else itoaDigits16 12 (int32Bits val)
    (digits ++ [0], digits.length + 1)

/-- The `utilAtoi` base-10 accumulation loop (src/util.c 113–119):
returns `none` on the first non-numeric character, otherwise the final
32-bit accumulator `result = result * 10 + (c - '0')`. -/
def atoiLoop10 : List Nat → Nat → Option Nat
  | [], result => some result
  | c :: rest, result =>
    if isnumeric c then atoiLoop10 rest ((result * 10 + (c - 48)) % 4294967296)
    else none

/-- The `utilAtoi` base-16 accumulation loop (src/util.c 121–136):
hex letters of either case and digits; `result = (result << 4) + digit`. -/
def atoiLoop16 : List Nat → Nat → Option Nat
  | [], result => some result
  | c :: rest, result =>
    if 97 ≤ c && c ≤ 102 then
      atoiLoop16 rest (((result <<< 4) + (c - 97 + 10)) % 4294967296)
    else if 65 ≤ c && c ≤ 70 then
      atoiLoop16 rest (((result <<< 4) + (c - 65 + 10)) % 4294967296)
    else if isnumeric c then
      atoiLoop16 rest (((result <<< 4) + (c - 48)) % 4294967296)
    else none

/-- `utilAtoi` (src/util.c 101–142).  A leading 45 (`'-'`) sets the
negative flag; the final value is `-(int32_t)result` resp.
`(int32_t)result`, i.e. a two's-complement reinterpretation (the
negation also wraps, as it does on the target at `result = 2^31`). -/
def utilAtoi (s : List Nat) (base : ITOA_BASE_t) : ConvInt_t :=
  let isNegative : Bool := match s with | c :: _ => c = 45 | [] => false
  let body := match s with | c :: rest => if c = 45 then rest else c :: rest | [] => []
  let loopRes :=
    if base = ITOA_BASE_t.ITOA_BASE10 then atoiLoop10 body 0 else atoiLoop16 body 0
  match loopRes with
  | none => { valid := false, val := 0 }
  | some result =>
    { valid := true
      val := if isNegative then toInt32 ((4294967296 - result) % 4294967296)
             else toInt32 result }

/-!
## Float/string conversion — `utilAtof` (src/util.c 204–249)

The parser accumulates three 32-bit integers (`intPart`, `fracPart`,
`fracDiv`) and only converts to floating point at the very end through
the vendored `qfp` backend.  The final `qfp` arithmetic is modelled
over `ℚ`; every claim proved below about this model depends only on
the validity flag and on values (0, 1/2) that the single-precision
backend represents exactly.
-/

/-- `ConvFloat_t` with the value modelled in `ℚ`. -/
structure ConvFloat_t where
  valid : Bool
  val : Rat
deriving DecidableEq

/-- The `utilAtof` character loop (src/util.c 218–234), over state
`(inFraction, intPart, fracPart, fracDiv)`; `none` at the first
character that is neither a digit nor a separator 46/44 (`'.'`/`','`). -/
def atofLoop : List Nat → Bool → Nat → Nat → Nat → Option (Nat × Nat × Nat)
  | [], _, intPart, fracPart, fracDiv => some (intPart, fracPart, fracDiv)
  | c :: rest, inFraction, intPart, fracPart, fracDiv =>
    if c = 46 || c = 44 then atofLoop rest true intPart fracPart fracDiv
    else if isnumeric c then
      if inFraction then
        atofLoop rest inFraction intPart
          ((fracPart * 10 + (c - 48)) % 4294967296) ((fracDiv * 10) % 4294967296)
      else
        atofLoop rest inFraction ((intPart * 10 + (c - 48)) % 4294967296)
          fracPart fracDiv
    else none

/-- `utilAtof` (src/util.c 204–249). -/
def utilAtof (s : List Nat) : ConvFloat_t :=
  let isNegative : Bool := match s with | c :: _ => c = 45 | [] => false
  let body := match s with | c :: rest => if c = 45 then rest else c :: rest | [] => []
  match atofLoop body false 0 0 1 with
  | none => { valid := false, val := 0 }
  | some (intPart, fracPart, fracDiv) =>
    let v : Rat := (intPart : Rat)
    let v := if 1 < fracDiv then v + (fracPart : Rat) / (fracDiv : Rat) else v
    let v := if isNegative then v * (-1) else v
    { valid := true, val := v }

/-!
## UART driver — `uartPutcBlocking`, `uartPutsNonBlocking` (src/util.c 554–596)

The two routines are embedded as instruction lists over a small-step
semantics.  A `wait` instruction whose condition does not hold yields
`none`: execution cannot proceed without an external event (here: the
DMA-completion interrupt `uartInUseClear`, or the hardware raising
DRE).  `runUart` therefore models an interference-free execution, in
which "the caller is blocked until the first transfer completes" reads
as: the routine does not run to completion while `uartInUse` is set.
-/

/-- Observable machine state touched by the UART transmit paths:
the `uartInUse` software flag, the USART DRE interrupt flag, the DMA
descriptor fields written by `uartPutsNonBlocking`, the DMA channel
enable, the NVIC master enable, and the bytes put on the wire. -/
structure UartState where
  uartInUse : Bool
  dre : Bool
  descValid : Bool
  btcnt : Nat
  srcaddr : Nat
  chanEnabled : Bool
  irqOn : Bool
  wire : List Nat
deriving DecidableEq

/-- The primitive statements appearing in the two transmit routines. -/
inductive UartInstr where
  | waitNotBusy
  | waitDre
  | writeData (c : Nat)
  | clearDre
  | setDescValid
  | setBtcnt (n : Nat)
  | setSrcaddr (a : Nat)
  | disableIrq
  | setUartInUse
  | enableChan
  | enableIrq
deriving DecidableEq

/-- Effect of one statement; `none` means the statement is a busy-wait
whose condition is not satisfied (blocked pending an external event). -/
def uartStep (s : UartState) : UartInstr → Option UartState
  | .waitNotBusy => if s.uartInUse then none else some s
  | .waitDre => if s.dre then some s else none
  | .writeData c => some { s with wire := s.wire ++ [c] }
  | .clearDre => some { s with dre := false }
  | .setDescValid => some { s with descValid := true }
  | .setBtcnt n => some { s with btcnt := n }
  | .setSrcaddr a => some { s with srcaddr := a }
  | .disableIrq => some { s with irqOn := false }
  | .setUartInUse => some { s with uartInUse := true }
  | .enableChan => some { s with chanEnabled := true }
  | .enableIrq => some { s with irqOn := true }

/-- Run a routine to completion, interference-free. -/
def runUart (prog : List UartInstr) (s : UartState) : Option UartState :=
  match prog with
  | [] => some s
  | i :: rest =>
    match uartStep s i with
    | none => none
    | some s1 => runUart rest s1

/-- `uartPutcBlocking` (src/util.c 556–565):
`while (uartInUse); while (!DRE); DATA = c; INTFLAG = DRE;` -/
def uartPutcBlocking (c : Nat) : List UartInstr :=
  [.waitNotBusy, .waitDre, .writeData c, .clearDre]

/-- `uartPutsNonBlocking` (src/util.c 584–596): rewrite the DMA
descriptor (valid bit, beat count, source address `s + len`), then with
interrupts disabled set `uartInUse` and enable the channel, then
re-enable interrupts.  There is no wait instruction in the source. -/
def uartPutsNonBlocking (src len : Nat) : List UartInstr :=
  [.setDescValid, .setBtcnt len, .setSrcaddr (src + len), .disableIrq,
   .setUartInUse, .enableChan, .enableIrq]

/-!
## External interrupt controller — `eicConfigureRfmIrq` (src/util.c 260–284)

The routine samples the `nDISABLE_EXT_INTF` strap, disables the EIC,
rebinds the radio-IRQ line (`EXTINT14`, rising edge, interrupt
enabled), re-enables the EIC, then samples the strap again.  The pin
reads high (`true`) when the external interface should be enabled, as
fixed by `irq_handler_eic` (src/util.c 304–318): pin high ⇒
`sercomExtIntfEnable`, pin low ⇒ `sercomExtIntfDisable`.

The two pin samples are passed in as `pinBefore` / `pinAfter`.
-/

/-- State touched by the reconfiguration: the external-interface
enable (the `extIntfEnabled` flag together with the SPI pin mux it
drives) and the EXTINT14 interrupt-enable bit of the EIC. -/
structure EicState where
  extIntfEnabled : Bool
  extint14Enabled : Bool
deriving DecidableEq

/-- `sercomExtIntfDisable` (src/util.c 397–400): clears the flag and
tri-states the SPI pins (the pin mux is abstracted into the flag). -/
def sercomExtIntfDisable (s : EicState) : EicState :=
  { s with extIntfEnabled := false }

/-- Modelled from the spec: `sercomExtIntfEnable` is declared in the
SERCOM driver header and called here, but its definition is not among
the source files; per the specification of the serial driver it
re-enables the external interface (sets the enable flag and restores
the SPI pin mux), dually to `sercomExtIntfDisable`. -/
def sercomExtIntfEnable (s : EicState) : EicState :=
  { s with extIntfEnabled := true }

/-- `eicConfigureRfmIrq` (src/util.c 260–284).  `pinBefore` is the
strap sample taken before the EIC is disabled, `pinAfter` the sample
taken after it is re-enabled.  The reconfiguration itself sets
`EIC->INTENSET = EXTINT14`; the compensation branch runs only when the
two samples differ and branches on `nDisable`, the **first** sample. -/
def eicConfigureRfmIrq (pinBefore pinAfter : Bool) (s : EicState) : EicState :=
  let s1 := { s with extint14Enabled := true }
  if pinBefore ≠ pinAfter then
    if pinBefore then sercomExtIntfEnable s1
    else sercomExtIntfDisable { s1 with extint14Enabled := false }
  else s1

/-!
## I2C primitives — `i2cActivate`, `i2cDataWrite`, `i2cDataRead`
(src/util.c 688–772)

Each primitive busy-polls an interrupt-flag register against a 200 µs
bound read from the free-running microsecond timer.  The environment
supplies the register values observed: `intflag i` and `delta i` are
the INTFLAG and `timerMicrosDelta` values read on the i-th loop
iteration, and `status1`/`status2` the two STATUS reads performed
after the loop.  The poll loop takes a fuel; `none` models the loop
never exiting (possible only if the timer values never exceed the
bound), which on the device is the watchdog's terminal case.

Register bit masks (SAMD21 SERCOM I2CM):
INTFLAG.MB = 1, INTFLAG.SB = 2; STATUS.BUSERR = 1, STATUS.ARBLOST = 2,
STATUS.RXNACK = 4.
-/

/-- `I2CM_Status_t`: the enumerated outcome of every I2C primitive. -/
inductive I2CM_Status_t where
  | I2CM_SUCCESS
  | I2CM_NOACK
  | I2CM_TIMEOUT
  | I2CM_ERROR
  | I2CM_DISABLED
deriving DecidableEq

/-- Register values observed by one I2C primitive call. -/
structure I2cEnv where
  intflag : Nat → Nat
  delta : Nat → Nat
  status1 : Nat
  status2 : Nat
  data : Nat

/-- `I2CM_ACTIVATE_TIMEOUT_US` and `I2CM_DATA_TIMEOUT_US` are both 200. -/
def I2CM_TIMEOUT_US : Nat := 200

/-- The poll loop `while (!(INTFLAG & mask)) { if (delta > 200) return
TIMEOUT; }` starting at poll index `i`: `some true` when the flag
appeared, `some false` when the 200 µs bound was exceeded first,
`none` when the fuel ran out. -/
def i2cWaitFlag (env : I2cEnv) (mask : Nat) : Nat → Nat → Option Bool
  | _, 0 => none
  | i, fuel + 1 =>
    if env.intflag i &&& mask ≠ 0 then some true
    else if I2CM_TIMEOUT_US < env.delta i then some false
    else i2cWaitFlag env mask (i + 1) fuel

/-- `i2cActivate` (src/util.c 688–718): returns `I2CM_DISABLED` when
the peripheral enable bit is clear; waits for MB or SB; then checks
BUSERR/ARBLOST, then RXNACK. -/
def i2cActivate (enabled : Bool) (env : I2cEnv) (fuel : Nat) : Option I2CM_Status_t :=
  if !enabled then some .I2CM_DISABLED
  else
    match i2cWaitFlag env 3 0 fuel with
    | none => none
    | some false => some .I2CM_TIMEOUT
    | some true =>
      if env.status1 &&& 3 ≠ 0 then some .I2CM_ERROR
      else if env.status2 &&& 4 ≠ 0 then some .I2CM_NOACK
      else some .I2CM_SUCCESS

/-- `i2cDataWrite` (src/util.c 727–751): writes DATA, waits for MB
only, then checks BUSERR/ARBLOST, then RXNACK. -/
def i2cDataWrite (env : I2cEnv) (fuel : Nat) : Option I2CM_Status_t :=
  match i2cWaitFlag env 1 0 fuel with
  | none => none
  | some false => some .I2CM_TIMEOUT
  | some true =>
    if env.status1 &&& 3 ≠ 0 then some .I2CM_ERROR
    else if env.status2 &&& 4 ≠ 0 then some .I2CM_NOACK
    else some .I2CM_SUCCESS

/-- `i2cDataRead` (src/util.c 753–772): waits for MB or SB, checks
BUSERR/ARBLOST, otherwise reads DATA into `*pData` and succeeds. -/
def i2cDataRead (env : I2cEnv) (fuel : Nat) : Option (I2CM_Status_t × Option Nat) :=
  match i2cWaitFlag env 3 0 fuel with
  | none => none
  | some false => some (.I2CM_TIMEOUT, none)
  | some true =>
    if env.status1 &&& 3 ≠ 0 then some (.I2CM_ERROR, none)
    else some (.I2CM_SUCCESS, some env.data)

/-- Read a written buffer back as the C string `utilAtoi`/`utilAtof`
receive: the bytes up to the first NUL terminator. -/
def cString (buf : List Nat) : List Nat := buf.takeWhile (fun c => c ≠ 0)

/-- Character classes accepted by the `utilAtoi` base-16 loop:
hex letters of either case or a decimal digit. -/
def isHexDigit (c : Nat) : Bool :=
  (97 ≤ c && c ≤ 102) || (65 ≤ c && c ≤ 70) || isnumeric c

/-- A valid digit of the requested base, as `utilAtoi` recognises it. -/
def validDigit (base : ITOA_BASE_t) (c : Nat) : Bool :=
  match base with
  | .ITOA_BASE10 => isnumeric c
  | .ITOA_BASE16 => isHexDigit c

/-!
## Theorems
-/

/-- Claim C4: for every 32-bit unsigned input `x`, the unsigned
fast-square routine `usqr64` returns a (low, high) pair with
`low + high * 2^32` equal to `x * x` computed in arbitrary precision. -/
theorem usqr64_exact (x : Nat) (h : x < 4294967296) :
    (usqr64 x).1 + (usqr64 x).2 * 4294967296 = x * x := by
  have hxx : x * x = 4294967296 * ((x >>> 16) * (x >>> 16)) +
      131072 * ((x >>> 16) * (x % 65536)) + (x % 65536) * (x % 65536) := by
    have hx : x = 65536 * (x >>> 16) + x % 65536 := by omega
    calc x * x
        = (65536 * (x >>> 16) + x % 65536) * (65536 * (x >>> 16) + x % 65536) := by
          rw [← hx]
      _ = 4294967296 * ((x >>> 16) * (x >>> 16)) +
          131072 * ((x >>> 16) * (x % 65536)) + (x % 65536) * (x % 65536) := by
          ring
  have bA : (x >>> 16) * (x % 65536) ≤ 65535 * 65535 :=
    Nat.mul_le_mul (by omega) (by omega)
  have bB : (x >>> 16) * (x >>> 16) ≤ 65535 * 65535 :=
    Nat.mul_le_mul (by omega) (by omega)
  have bC : (x % 65536) * (x % 65536) ≤ 65535 * 65535 :=
    Nat.mul_le_mul (by omega) (by omega)
  simp only [usqr64]
  rw [hxx]
  generalize hA : (x >>> 16) * (x % 65536) = A at *
  generalize hB : (x >>> 16) * (x >>> 16) = B at *
  generalize hC : (x % 65536) * (x % 65536) = C at *
  clear hxx h
  omega

/-- Witness for C4 at the largest 32-bit input. -/
theorem usqr64_exact_witness :
    (usqr64 4294967295).1 + (usqr64 4294967295).2 * 4294967296 =
      4294967295 * 4294967295 :=
  usqr64_exact 4294967295 (by norm_num)

/-- Claim C1: the signed fast-square routine `ssqr64` does **not**
satisfy `low + high * 2^32 = x * x` for every 32-bit signed input.  At
`x = -1` (bit pattern 0xFFFFFFFF) the routine returns
(low, high) = (1, 0x20000), denoting `2^49 + 1`, whereas
`(-1) * (-1) = 1`: the cross term is shifted with `lsrs`, a logical
shift, where the sign of the signed product requires an arithmetic
shift.  (At the signed minimum 0x80000000 the cross term is zero and
the result `2^62` happens to be exact.) -/
theorem ssqr64_wrong_at_neg_one :
    ssqr64 (int32Bits (-1)) = (1, 131072) ∧
    ((ssqr64 (int32Bits (-1))).1 : Int) +
        ((ssqr64 (int32Bits (-1))).2 : Int) * 4294967296 ≠ (-1 : Int) * (-1) ∧
    ssqr64 (int32Bits (-2147483648)) = (0, 1073741824) := by
  refine ⟨by decide, by decide, by decide⟩

/-- Claim C6: for every 32-bit unsigned `n`, the shift/add helper
`fastDiv10` — a multiply/shift approximation of `n * (4/5) / 8`
followed by a one-step correction, using no divide instruction —
equals the exact integer quotient `n / 10`. -/
theorem fastDiv10_exact (n : Nat) (h : n < 4294967296) : fastDiv10 n = n / 10 := by
  have hA : 3 * n ≤ 4 * fdA n + 5 ∧ 4 * fdA n ≤ 3 * n := by
    simp only [fdA]; omega
  have hBeq : fdB n = fdA n + (fdA n >>> 4) := by
    have h2 := hA.2
    simp only [fdB]; omega
  have hB : 17 * fdA n ≤ 16 * fdB n + 15 ∧ 16 * fdB n ≤ 17 * fdA n := by
    rw [hBeq]; omega
  have hCeq : fdC n = fdB n + (fdB n >>> 8) := by
    have h2 := hA.2; have h3 := hB.2
    simp only [fdC]; omega
  have hC : 257 * fdB n ≤ 256 * fdC n + 255 ∧ 256 * fdC n ≤ 257 * fdB n := by
    rw [hCeq]; omega
  have hDeq : fdD n = fdC n + (fdC n >>> 16) := by
    have h2 := hA.2; have h3 := hB.2; have h4 := hC.2
    simp only [fdD]; omega
  have hD : 65537 * fdC n ≤ 65536 * fdD n + 65535 ∧ 65536 * fdD n ≤ 65537 * fdC n := by
    rw [hDeq]; omega
  have hQ : fdD n ≤ 8 * fdQ n + 7 ∧ 8 * fdQ n ≤ fdD n := by
    simp only [fdQ]; omega
  have u1 : 64 * fdB n ≤ 51 * n := by omega
  have u2 : 16384 * fdC n ≤ 13107 * n := by omega
  have u3 : 1073741824 * fdD n ≤ 858993459 * n := by omega
  have u4 : 8589934592 * fdQ n ≤ 858993459 * n := by omega
  have l2 : 51 * n ≤ 64 * fdB n + 145 := by omega
  have l3 : 13107 * n ≤ 16384 * fdC n + 53585 := by omega
  have l4 : 858993459 * n ≤ 1073741824 * fdD n + 4585525585 := by omega
  have l5 : 858993459 * n ≤ 8589934592 * fdQ n + 12101718353 := by omega
  have s1 : 10 * fdQ n ≤ n := by omega
  have s2 : n ≤ 10 * fdQ n + 19 := by omega
  have m2 : fdR n = n - 10 * fdQ n := by
    simp only [fdR]; omega
  simp only [fastDiv10]
  rw [m2]
  clear hA hBeq hB hCeq hC hDeq hD hQ u1 u2 u3 u4 l2 l3 l4 l5 m2
  rcases Nat.lt_or_ge (n - 10 * fdQ n) 10 with hr | hr
  · have hc : (n - 10 * fdQ n + 6) >>> 4 = 0 := by omega
    rw [hc]; omega
  · have hc : (n - 10 * fdQ n + 6) >>> 4 = 1 := by omega
    rw [hc]; omega

/-- Witness for C6 at the largest 32-bit input. -/
theorem fastDiv10_exact_witness : fastDiv10 4294967295 = 4294967295 / 10 :=
  fastDiv10_exact 4294967295 (by norm_num)

/-- Claim C9: formatting the integer 0 in decimal with `utilItoa`
yields exactly the two bytes `'0'` (48) followed by the NUL
terminator — not the empty string and not "00" — and the function
returns 2. -/
theorem utilItoa_zero_decimal : utilItoa 0 ITOA_BASE_t.ITOA_BASE10 = ([48, 0], 2) := by
  decide

/-- Claim C5: for every value in the representative set
{0, 1, −1, 123, −456, 999999, −999999, INT32_MIN, INT32_MAX},
formatting with `utilItoa` and then parsing the resulting string with
`utilAtoi` in the same base returns a valid result equal to the
original value, for base 10 and for base 16. -/
theorem utilItoa_utilAtoi_roundtrip :
    ∀ v ∈ ([0, 1, -1, 123, -456, 999999, -999999,
            -2147483648, 2147483647] : List Int),
    ∀ b ∈ [ITOA_BASE_t.ITOA_BASE10, ITOA_BASE_t.ITOA_BASE16],
    utilAtoi (cString (utilItoa v b).1) b = { valid := true, val := v } := by
  decide

/-- Witness for C5 at value 123 in base 10. -/
theorem utilItoa_utilAtoi_roundtrip_witness :
    utilAtoi (cString (utilItoa 123 ITOA_BASE_t.ITOA_BASE10).1)
      ITOA_BASE_t.ITOA_BASE10 = { valid := true, val := 123 } :=
  utilItoa_utilAtoi_roundtrip 123 (by decide) ITOA_BASE_t.ITOA_BASE10 (by decide)

/-- Claim C10: on the empty input, and on the input consisting of only
a leading minus sign (byte 45), `utilAtoi` (in either base) and
`utilAtof` return a result whose validity flag is true and whose value
is zero, rather than reporting the input as not valid. -/
theorem parsers_accept_empty_and_bare_minus :
    utilAtoi [] ITOA_BASE_t.ITOA_BASE10 = { valid := true, val := 0 } ∧
    utilAtoi [] ITOA_BASE_t.ITOA_BASE16 = { valid := true, val := 0 } ∧
    utilAtoi [45] ITOA_BASE_t.ITOA_BASE10 = { valid := true, val := 0 } ∧
    utilAtoi [45] ITOA_BASE_t.ITOA_BASE16 = { valid := true, val := 0 } ∧
    utilAtof [] = { valid := true, val := 0 } ∧
    utilAtof [45] = { valid := true, val := 0 } := by
  refine ⟨by decide, by decide, by decide, by decide, ?_, ?_⟩
  · norm_num [utilAtof, atofLoop]
  · norm_num [utilAtof, atofLoop]

/-- Claim C7 counterexample: the input ".5" (bytes 46, 53) starts with
a character that is not a minus sign and not a valid digit for any
base, yet `utilAtof` returns a result with the validity flag **true**
(value one half): the float parser also accepts the separators `'.'`
and `','` as leading characters. -/
theorem utilAtof_accepts_leading_dot :
    (46 : Nat) ≠ 45 ∧ isnumeric 46 = false ∧
    utilAtof [46, 53] = { valid := true, val := (1 : Rat)/2 } := by
  refine ⟨by decide, by decide, ?_⟩
  norm_num [utilAtof, atofLoop, isnumeric]

/-- Claim C7 (amended): for every text input whose first character
after an optional leading minus sign is not a valid digit for the
requested base — and, for `utilAtof`, is also not one of the decimal
separators `'.'` (46) or `','` (44) — the parser returns a result with
the validity flag false and the value left at its default of zero. -/
theorem parsers_reject_leading_invalid :
    (∀ (b : ITOA_BASE_t) (c : Nat) (rest : List Nat), validDigit b c = false →
      utilAtoi (45 :: c :: rest) b = { valid := false, val := 0 } ∧
      (c ≠ 45 → utilAtoi (c :: rest) b = { valid := false, val := 0 })) ∧
    (∀ (c : Nat) (rest : List Nat),
      isnumeric c = false → c ≠ 46 → c ≠ 44 →
      utilAtof (45 :: c :: rest) = { valid := false, val := 0 } ∧
      (c ≠ 45 → utilAtof (c :: rest) = { valid := false, val := 0 })) := by
  constructor
  · intro b c rest h
    cases b with
    | ITOA_BASE10 =>
      simp only [validDigit] at h
      refine ⟨?_, fun hc => ?_⟩
      · simp [utilAtoi, atoiLoop10, h]
      · simp [utilAtoi, atoiLoop10, h, hc]
    | ITOA_BASE16 =>
      simp only [validDigit] at h
      have hA : (97 ≤ c && c ≤ 102) = false := by
        cases hx : (97 ≤ c && c ≤ 102) with
        | false => rfl
        | true => rw [isHexDigit, hx] at h; simp at h
      have hB : (65 ≤ c && c ≤ 70) = false := by
        cases hx : (65 ≤ c && c ≤ 70) with
        | false => rfl
        | true => rw [isHexDigit, hx] at h; simp at h
      have hC : isnumeric c = false := by
        cases hx : isnumeric c with
        | false => rfl
        | true => rw [isHexDigit, hx] at h; simp at h
      refine ⟨?_, fun hc => ?_⟩
      · simp [utilAtoi, atoiLoop16, hA, hB, hC]
      · simp [utilAtoi, atoiLoop16, hA, hB, hC, hc]
  · intro c rest h1 h2 h3
    refine ⟨?_, fun hc => ?_⟩
    · simp [utilAtof, atofLoop, h1, h2, h3]
    · simp [utilAtof, atofLoop, h1, h2, h3, hc]

/-- Witness for the amended C7 at the inputs "-x" and "x" (120 is not
a digit, a separator, or a minus sign). -/
theorem parsers_reject_leading_invalid_witness :
    utilAtoi [45, 120] ITOA_BASE_t.ITOA_BASE10 = { valid := false, val := 0 } ∧
    utilAtof [120] = { valid := false, val := 0 } :=
  ⟨(parsers_reject_leading_invalid.1 ITOA_BASE_t.ITOA_BASE10 120 [] (by decide)).1,
   (parsers_reject_leading_invalid.2 120 [] (by decide) (by decide) (by decide)).2
     (by decide)⟩

/-- Claim C2 counterexample: from a state in which a first non-blocking
transfer is in flight (`uartInUse = true`, channel enabled, descriptor
pointing at bytes 100..105), a second call of `uartPutsNonBlocking`
runs to completion — it is not blocked — and immediately overwrites
the in-flight descriptor (beat count 3, source address 203) and
re-arms the channel, with `uartInUse` still true throughout.  The
routine contains no wait on the busy flag, so the caller is **not**
delayed until the first transfer completes. -/
theorem uartPutsNonBlocking_busy_not_blocked :
    runUart (uartPutsNonBlocking 200 3)
      { uartInUse := true, dre := false, descValid := true, btcnt := 5,
        srcaddr := 105, chanEnabled := true, irqOn := true, wire := [] } =
    some { uartInUse := true, dre := false, descValid := true, btcnt := 3,
           srcaddr := 203, chanEnabled := true, irqOn := true, wire := [] } := by
  decide

/-- Claim C2 (amended): `uartPutsNonBlocking` never waits on the busy
flag — from every state, also one with a transfer in flight, it
completes immediately, setting `uartInUse` and re-arming the DMA
channel with the new descriptor.  The wait for an in-flight transfer
exists only in `uartPutcBlocking`: issued while `uartInUse` is true it
does not complete without the DMA-completion interrupt, and issued
while the flag is clear (and the data register empty) it transmits its
byte. -/
theorem uartPutsNonBlocking_never_waits :
    (∀ (src len : Nat) (s : UartState),
      runUart (uartPutsNonBlocking src len) s =
        some { s with descValid := true, btcnt := len, srcaddr := src + len,
                      uartInUse := true, chanEnabled := true, irqOn := true }) ∧
    (∀ (c : Nat) (s : UartState), s.uartInUse = true →
      runUart (uartPutcBlocking c) s = none) ∧
    (∀ (c : Nat) (s : UartState), s.uartInUse = false → s.dre = true →
      runUart (uartPutcBlocking c) s =
        some { s with dre := false, wire := s.wire ++ [c] }) := by
  refine ⟨?_, ?_, ?_⟩
  · intro src len s
    rfl
  · intro c s h
    simp [runUart, uartPutcBlocking, uartStep, h]
  · intro c s h1 h2
    simp [runUart, uartPutcBlocking, uartStep, h1, h2]

/-- Witness for the amended C2: with the flag set, `uartPutcBlocking`
does not complete; the non-blocking routine from the same state does. -/
theorem uartPutsNonBlocking_never_waits_witness :
    runUart (uartPutcBlocking 65)
      { uartInUse := true, dre := true, descValid := false, btcnt := 0,
        srcaddr := 0, chanEnabled := false, irqOn := true, wire := [] } = none :=
  uartPutsNonBlocking_never_waits.2.1 65
    { uartInUse := true, dre := true, descValid := false, btcnt := 0,
      srcaddr := 0, chanEnabled := false, irqOn := true, wire := [] } rfl

/-- Claim C3: `eicConfigureRfmIrq` samples the strap before and after
the reconfiguration, but when the two samples differ it applies the
action of the **old** sample, not the new one.  First conjunct: strap
read enabled (true) before and disabled (false) after — the claim
requires the interface disabled and EXTINT14 masked, yet the routine
calls `sercomExtIntfEnable` and leaves EXTINT14 enabled.  Second
conjunct: strap read disabled before and enabled after — the claim
requires the interface enabled, yet the routine masks EXTINT14 and
calls `sercomExtIntfDisable`. -/
theorem eicConfigureRfmIrq_applies_old_strap_state :
    eicConfigureRfmIrq true false
        { extIntfEnabled := true, extint14Enabled := false } =
      { extIntfEnabled := true, extint14Enabled := true } ∧
    eicConfigureRfmIrq false true
        { extIntfEnabled := false, extint14Enabled := false } =
      { extIntfEnabled := false, extint14Enabled := false } := by
  exact ⟨by decide, by decide⟩

/-- The poll loop of the I2C primitives returns the timed-out marker
when the awaited flag stays absent while the observed elapsed time
stays within the bound for `k` polls and exceeds it on poll `k`. -/
theorem i2cWaitFlag_times_out (env : I2cEnv) (mask : Nat) :
    ∀ (k start fuel : Nat),
      (∀ i, start ≤ i → i ≤ start + k → env.intflag i &&& mask = 0) →
      (∀ i, start ≤ i → i < start + k → env.delta i ≤ 200) →
      200 < env.delta (start + k) →
      k < fuel →
      i2cWaitFlag env mask start fuel = some false := by
  intro k
  induction k with
  | zero =>
    intro start fuel h1 h2 h3 hf
    match fuel, hf with
    | f + 1, _ =>
      have hflag : env.intflag start &&& mask = 0 := h1 start le_rfl (by omega)
      have hd : 200 < env.delta start := by simpa using h3
      simp [i2cWaitFlag, hflag, hd, I2CM_TIMEOUT_US]
  | succ n ih =>
    intro start fuel h1 h2 h3 hf
    match fuel, hf with
    | f + 1, hf =>
      have hflag : env.intflag start &&& mask = 0 := h1 start le_rfl (by omega)
      have hd : ¬ (200 < env.delta start) := by
        have := h2 start le_rfl (by omega)
        omega
      have hrec : i2cWaitFlag env mask (start + 1) f = some false := by
        refine ih (start + 1) f (fun i hi1 hi2 => h1 i (by omega) (by omega))
          (fun i hi1 hi2 => h2 i (by omega) (by omega)) ?_ (by omega)
        have he : start + 1 + n = start + (n + 1) := by omega
        rw [he]
        exact h3
      simp [i2cWaitFlag, hflag, hd, I2CM_TIMEOUT_US, hrec]

/-- Claim C8: each I2C primitive (`i2cActivate`, `i2cDataWrite`,
`i2cDataRead`) always returns one of the enumerated statuses success,
negative-acknowledgement, timeout, bus-fault, or peripheral-disabled,
and returns the timeout status whenever the bus flag it awaits (MB or
SB) does not appear within the 200 µs bound. -/
theorem i2c_status_enum_and_timeout (env : I2cEnv) (k fuel : Nat)
    (hflag : ∀ i, i ≤ k → env.intflag i &&& 3 = 0)
    (hdelta : ∀ i, i < k → env.delta i ≤ 200)
    (hk : 200 < env.delta k)
    (hfuel : k < fuel) :
    (∀ (en : Bool) (e : I2cEnv) (f : Nat) (st : I2CM_Status_t),
      i2cActivate en e f = some st →
      st = I2CM_Status_t.I2CM_SUCCESS ∨ st = I2CM_Status_t.I2CM_NOACK ∨
      st = I2CM_Status_t.I2CM_TIMEOUT ∨ st = I2CM_Status_t.I2CM_ERROR ∨
      st = I2CM_Status_t.I2CM_DISABLED) ∧
    (∀ (e : I2cEnv) (f : Nat) (st : I2CM_Status_t),
      i2cDataWrite e f = some st →
      st = I2CM_Status_t.I2CM_SUCCESS ∨ st = I2CM_Status_t.I2CM_NOACK ∨
      st = I2CM_Status_t.I2CM_TIMEOUT ∨ st = I2CM_Status_t.I2CM_ERROR ∨
      st = I2CM_Status_t.I2CM_DISABLED) ∧
    (∀ (e : I2cEnv) (f : Nat) (r : I2CM_Status_t × Option Nat),
      i2cDataRead e f = some r →
      r.1 = I2CM_Status_t.I2CM_SUCCESS ∨ r.1 = I2CM_Status_t.I2CM_NOACK ∨
      r.1 = I2CM_Status_t.I2CM_TIMEOUT ∨ r.1 = I2CM_Status_t.I2CM_ERROR ∨
      r.1 = I2CM_Status_t.I2CM_DISABLED) ∧
    i2cActivate true env fuel = some I2CM_Status_t.I2CM_TIMEOUT ∧
    i2cDataWrite env fuel = some I2CM_Status_t.I2CM_TIMEOUT ∧
    i2cDataRead env fuel = some (I2CM_Status_t.I2CM_TIMEOUT, none) := by
  have hw3 : i2cWaitFlag env 3 0 fuel = some false := by
    refine i2cWaitFlag_times_out env 3 k 0 fuel
      (fun i _ hi => hflag i (by omega)) (fun i _ hi => hdelta i (by omega))
      ?_ hfuel
    simpa using hk
  have hw1 : i2cWaitFlag env 1 0 fuel = some false := by
    refine i2cWaitFlag_times_out env 1 k 0 fuel
      (fun i _ hi => ?_) (fun i _ hi => hdelta i (by omega)) ?_ hfuel
    · have h3 := hflag i (by omega)
      have h31 : (3 : Nat) &&& 1 = 1 := by decide
      calc env.intflag i &&& 1 = env.intflag i &&& 3 &&& 1 := by
            rw [Nat.and_assoc, h31]
        _ = 0 &&& 1 := by rw [h3]
        _ = 0 := by simp
    · simpa using hk
  refine ⟨?_, ?_, ?_, ?_, ?_, ?_⟩
  · intro en e f st _
    rcases st <;> simp
  · intro e f st _
    rcases st <;> simp
  · intro e f r _
    rcases r with ⟨st, d⟩
    rcases st <;> simp
  · simp [i2cActivate, hw3]
  · simp [i2cDataWrite, hw1]
  · simp [i2cDataRead, hw3]

/-- Witness for C8: an environment whose flags never appear and whose
timer exceeds the bound on the second poll makes all three primitives
report the timeout status. -/
theorem i2c_status_enum_and_timeout_witness :
    i2cActivate true
        { intflag := fun _ => 0, delta := fun i => 300 * i,
          status1 := 0, status2 := 0, data := 0 } 2 =
      some I2CM_Status_t.I2CM_TIMEOUT :=
  (i2c_status_enum_and_timeout
    { intflag := fun _ => 0, delta := fun i => 300 * i,
      status1 := 0, status2 := 0, data := 0 } 1 2
    (fun i _ => by simp) (fun i hi => by show 300 * i ≤ 200; omega)
    (by show (200 : Nat) < 300 * 1; norm_num) (by norm_num)).2.2.2.1
